import Mathlib

/-!
Verification development for the NoCapAI fake-news verification pipeline.

The repository consists of a React frontend (ChatBox.jsx), a browser
extension (background.js / content.js), and a FastAPI backend
(main.py, db.py, rag.py).  The frontend and extension sources are
embedded here directly; the backend sources are not part of the
checked-out tree, so the orchestrator, retrieval gate and chunker are
modelled from the specification together with the repository's own
workflow document, which records the backend's observable behaviour.

Strings are embedded as List Char so that the JavaScript character-level
operations (includes, trim, regex scanning, replace) can be given exact
executable counterparts.
-/

namespace NoCap

/-! ### JavaScript string primitives -/

/-- The character class matched by the JavaScript regular-expression
escape for whitespace and by String.trim: space, tab, line
terminators, vertical tab, form feed, NBSP and the Unicode space
separators. -/
def jsWhitespace (c : Char) : Bool :=
  let n := c.toNat
  n == 0x20 || n == 0x09 || n == 0x0A || n == 0x0D || n == 0x0B || n == 0x0C ||
  n == 0xA0 || n == 0x1680 ||
  (decide (0x2000 ≤ n) && decide (n ≤ 0x200A)) ||
  n == 0x2028 || n == 0x2029 || n == 0x202F || n == 0x205F || n == 0x3000 ||
  n == 0xFEFF

/-- JavaScript String.trim: drop whitespace from both ends. -/
def jsTrim (s : List Char) : List Char :=
  ((s.dropWhile jsWhitespace).reverse.dropWhile jsWhitespace).reverse

/-- Does the haystack start with the needle (exact character match)? -/
def leadsWith : List Char → List Char → Bool
  | [], _ => true
  | _ :: _, [] => false
  | a :: as, b :: bs => a == b && leadsWith as bs

/-- JavaScript String.includes: the needle occurs contiguously in the
haystack. -/
def jsIncludes : List Char → List Char → Bool
  | [], needle => leadsWith needle []
  | c :: t, needle => leadsWith needle (c :: t) || jsIncludes t needle

/-- Uppercase every character (the simple case fold used by the
case-insensitive regular expressions in the sources). -/
def upperStr (s : List Char) : List Char := s.map Char.toUpper

/-- Case-insensitive containment: the uppercase needle occurs in the
uppercased haystack. -/
def ciIncludes (hay needle : List Char) : Bool :=
  jsIncludes (upperStr hay) needle

/-- Match an (uppercase) literal pattern case-insensitively at the head
of the input, returning the remainder on success. -/
def matchCI : List Char → List Char → Option (List Char)
  | [], s => some s
  | _ :: _, [] => none
  | p :: ps, c :: cs => if c.toUpper == p then matchCI ps cs else none

/-- Match a literal pattern case-sensitively at the head of the input,
returning the remainder on success. -/
def matchLit : List Char → List Char → Option (List Char)
  | [], s => some s
  | _ :: _, [] => none
  | p :: ps, c :: cs => if c == p then matchLit ps cs else none

/-- Greedy whitespace skip, the effect of a maximal whitespace run in
the regular expressions of the sources (the alternatives that follow
all begin with non-whitespace letters, so backtracking into the run can
never succeed). -/
def skipWS (s : List Char) : List Char := s.dropWhile jsWhitespace

/-! ### Extension content script (content.js) -/

namespace ContentScript

/-- extractVerdict from content.js: case-sensitive substring tests in
the order FAKE, CREDIBLE or TRUE, MISLEADING, defaulting to
UNCERTAIN. -/
def extractVerdict (text : List Char) : List Char :=
  if jsIncludes text "FAKE".data then "FAKE".data
  else if jsIncludes text "CREDIBLE".data || jsIncludes text "TRUE".data then
    "CREDIBLE".data
  else if jsIncludes text "MISLEADING".data then "MISLEADING".data
  else "UNCERTAIN".data

end ContentScript

/-! ### Frontend chat component (ChatBox.jsx) -/

namespace ChatBox

/-- One attempt of the ChatBox verdict regular expression at the head of
the input: the literal VERDICT: label, optional whitespace, then one of
FAKE, MISLEADING, CREDIBLE, all case-insensitive.  Returns the captured
word, already uppercased as the source does. -/
def matchVerdictAt (s : List Char) : Option (List Char) :=
  match matchCI "VERDICT:".data s with
  | none => none
  | some rest =>
    let r := skipWS rest
    if (matchCI "FAKE".data r).isSome then some "FAKE".data
    else if (matchCI "MISLEADING".data r).isSome then some "MISLEADING".data
    else if (matchCI "CREDIBLE".data r).isSome then some "CREDIBLE".data
    else none

/-- Leftmost match of the ChatBox verdict regular expression: try each
start position from the left, as the JavaScript engine does. -/
def scanVerdict : List Char → Option (List Char)
  | [] => none
  | c :: t =>
    match matchVerdictAt (c :: t) with
    | some v => some v
    | none => scanVerdict t

/-- extractVerdict from ChatBox.jsx: first match of the VERDICT: pattern
uppercased, defaulting to UNKNOWN. -/
def extractVerdict (answer : List Char) : List Char :=
  match scanVerdict answer with
  | some v => v
  | none => "UNKNOWN".data

/-- One attempt of the ChatBox URL regular expression at the head of the
input: the literal scheme (the optional s tried greedily first) followed
by one or more non-whitespace characters taken greedily, returning the
matched text. -/
def matchURLAt (s : List Char) : Option (List Char) :=
  match matchLit "https://".data s with
  | some rest =>
    let body := rest.takeWhile (fun c => !jsWhitespace c)
    if body.isEmpty then none else some ("https://".data ++ body)
  | none =>
    match matchLit "http://".data s with
    | some rest =>
      let body := rest.takeWhile (fun c => !jsWhitespace c)
      if body.isEmpty then none else some ("http://".data ++ body)
    | none => none

/-- Leftmost match of the ChatBox URL regular expression, as returned by
the JavaScript match call in handleAnalyze. -/
def firstURL : List Char → Option (List Char)
  | [] => none
  | c :: t =>
    match matchURLAt (c :: t) with
    | some u => some u
    | none => firstURL t

/-- hasURL from ChatBox.jsx: the URL regular expression has a match in
the text (the regular expression object is created afresh on every
call, so the test carries no state between calls). -/
def hasURL (text : List Char) : Bool := (firstURL text).isSome

/-- JavaScript String.replace with a string pattern and empty
replacement: remove the first occurrence of the target. -/
def replaceFirst : List Char → List Char → List Char
  | [], _ => []
  | c :: t, target =>
    if leadsWith target (c :: t) then (c :: t).drop target.length
    else c :: replaceFirst t target

/-- The selected file, as far as handleAnalyze inspects it: its MIME
type (the JavaScript file.type field). -/
structure SelectedFile where
  fileType : List Char
deriving DecidableEq

/-- The HTTP request handleAnalyze issues, one constructor per backend
endpoint it can target. -/
inductive Request where
  | analyzeImage (sessionId : List Char)
  | analyzePdf (sessionId : List Char)
  | askWeb (url : List Char) (question : List Char) (sessionId : List Char)
  | ask (question : List Char) (sessionId : List Char)
deriving DecidableEq

/-- The request-routing logic of handleAnalyze in ChatBox.jsx: the
empty-input guard, then file upload, URL detection, or plain text, with
the question fields built exactly as the source builds the request
bodies.  Returns none when the guard rejects the submission and no
request is issued. -/
def handleAnalyze (inputValue : List Char) (selectedFile : Option SelectedFile)
    (isLoading : Bool) (sessionId : List Char) : Option Request :=
  if ((jsTrim inputValue).isEmpty && selectedFile.isNone) || isLoading then none
  else
    let userInput := jsTrim inputValue
    match selectedFile with
    | some f =>
      some (if f.fileType = "application/pdf".data then Request.analyzePdf sessionId
            else Request.analyzeImage sessionId)
    | none =>
      if hasURL userInput then
        let url := (firstURL userInput).getD []
        let q := jsTrim (replaceFirst userInput url)
        some (Request.askWeb url
          (if q.isEmpty then "Analyze this article".data else q) sessionId)
      else
        some (Request.ask userInput sessionId)

/-- One entry of the analysis history kept by ChatBox.jsx. -/
structure AnalysisResult where
  id : List Char
  question : List Char
  answer : List Char
  verdict : List Char
  confidence : ℚ
  sourceType : List Char
  timestamp : List Char

/-- addToHistory from ChatBox.jsx: prepend the new result and keep at
most the first 20 entries. -/
def addToHistory (result : AnalysisResult) (history : List AnalysisResult) :
    List AnalysisResult :=
  (result :: history).take 20

end ChatBox

/-! ### Backend pipeline

The backend sources (main.py, rag.py, db.py) are not part of the
checked-out tree; the definitions in this namespace are modelled from
the specification and from the repository's workflow document, which
records the backend's observable behaviour tier by tier. -/

namespace Backend

/-- Modelled from the spec: the relevance-gate threshold of the
Retrieval Engine (rag.py is absent); the reference distance threshold
is 100. -/
def SCORE_THRESHOLD : ℚ := 100

/-- Modelled from the spec: the best (lowest) distance score of a
Retrieval Result (the backend retrieval code is absent). -/
def bestScore : List ℚ → Option ℚ
  | [] => none
  | s :: rest =>
    match bestScore rest with
    | none => some s
    | some b => some (min s b)

/-- Modelled from the spec: the relevance gate evaluated by the
orchestrator on a Retrieval Result (main.py is absent) - a result is
usable only if its best distance is strictly below the threshold; the
workflow document records the same rule, a hit strictly below 100 and a
miss at or above 100.  An empty result is a miss. -/
def usable (scores : List ℚ) : Bool :=
  match bestScore scores with
  | none => false
  | some b => decide (b < SCORE_THRESHOLD)

/-- Modelled from the spec: the recursion of the Chunker (rag.py is
absent) - take one bounded chunk from the front and recurse on the
rest.  The fuel argument only bounds the number of chunks so that the
recursion is structural: every step consumes at least one character, so
the fuel chunk_text supplies - the text length - is always sufficient
and the zero-fuel clause is unreachable from chunk_text.  The inner
bound of one character exists only to make the degenerate size-zero
call well defined; the contract concerns positive bounds. -/
def chunkGo (maxSize : ℕ) : ℕ → List Char → List (List Char)
  | _, [] => []
  | 0, _ :: _ => []
  | fuel + 1, c :: t =>
    (c :: t).take (max 1 maxSize) ::
      chunkGo maxSize fuel ((c :: t).drop (max 1 maxSize))

/-- Modelled from the spec: chunk_text of the Chunker (rag.py is
absent) - split the text into an ordered sequence of bounded substrings
covering the input without gaps, reference maximum size 400. -/
def chunk_text (maxSize : ℕ) (text : List Char) : List (List Char) :=
  chunkGo maxSize text.length text

/-- The components the orchestrator can invoke while serving one
request. -/
inductive Component where
  | contentStore
  | retrievalEngine
  | webGatherer
  | llmBoundary
deriving DecidableEq

/-- The three pipeline tiers. -/
inductive Tier where
  | cacheTier
  | ragTier
  | webTier
deriving DecidableEq

/-- The caller-facing fields of a completed verification response that
the claims inspect. -/
structure VerifyResponse where
  answer : String
  source_type : String
  confidence : ℚ
deriving DecidableEq

/-- The per-request environment of the orchestrator: the Content Store
cache lookup result, the Retrieval Result distance scores and chunk
contents, the documents the Web Evidence Gatherer would produce, and
the language-model boundary with the confidence stated in its
answer. -/
structure Env where
  cacheHit : Option String
  ragScores : List ℚ
  ragChunks : List String
  webDocs : List String
  llmAnswer : String → String
  llmConfidence : ℚ

/-- Modelled from the spec: process_verification of the orchestrator
(main.py is absent) - the tiered pipeline of spec section 4.6,
instrumented with the list of components invoked.  The emitted
source_type labels and the fixed cache confidence of 95 follow the
workflow document, which records a cache hit answering with
source_type db and confidence 95, the retrieval tier answering with
source_type rag, and the web tier escalating; the web tier label
follows the spec.  Web escalation with no usable documents still
reaches adjudication with an explicit no-evidence context. -/
def process (env : Env) : VerifyResponse × List Component :=
  match env.cacheHit with
  | some ans =>
    ({ answer := ans, source_type := "db", confidence := 95 },
     [Component.contentStore])
  | none =>
    if usable env.ragScores then
      ({ answer := env.llmAnswer (String.join env.ragChunks),
         source_type := "rag", confidence := env.llmConfidence },
       [Component.contentStore, Component.retrievalEngine,
        Component.llmBoundary])
    else
      ({ answer := env.llmAnswer
           (if env.webDocs.isEmpty then "no evidence found"
            else String.join env.webDocs),
         source_type := "web", confidence := env.llmConfidence },
       [Component.contentStore, Component.retrievalEngine,
        Component.webGatherer, Component.llmBoundary])

/-- The source_type label each tier emits: the workflow document
records db for the cache tier and rag for the retrieval tier; the web
label follows the spec. -/
def sourceLabel : Tier → String
  | Tier.cacheTier => "db"
  | Tier.ragTier => "rag"
  | Tier.webTier => "web"

/-- The tier that actually produced an answer, read off the invocation
trace: web if the Web Evidence Gatherer ran, else the retrieval tier if
the Retrieval Engine ran, else the cache tier. -/
def producedTier (trace : List Component) : Tier :=
  if Component.webGatherer ∈ trace then Tier.webTier
  else if Component.retrievalEngine ∈ trace then Tier.ragTier
  else Tier.cacheTier

/-- A concrete request environment with an equivalent cached
Verification Record present. -/
def envCached : Env :=
  { cacheHit := some "the claim is false", ragScores := [200],
    ragChunks := [], webDocs := [], llmAnswer := fun _ => "",
    llmConfidence := 0 }

/-- A second concrete request environment with a cached Verification
Record present. -/
def envCachedB : Env :=
  { cacheHit := some "another cached answer", ragScores := [],
    ragChunks := [], webDocs := [], llmAnswer := fun _ => "",
    llmConfidence := 0 }

end Backend

/-! ### Helper lemmas on the string primitives -/

theorem leadsWith_upper {n h : List Char} (hl : leadsWith n h = true) :
    leadsWith (upperStr n) (upperStr h) = true := by
  induction n generalizing h with
  | nil => simp [leadsWith, upperStr]
  | cons a as ih =>
    cases h with
    | nil => simp [leadsWith] at hl
    | cons b bs =>
      simp only [leadsWith, Bool.and_eq_true, beq_iff_eq] at hl
      simp only [upperStr, List.map_cons, leadsWith, Bool.and_eq_true, beq_iff_eq]
      exact ⟨by rw [hl.1], ih hl.2⟩

theorem jsIncludes_of_leadsWith {h n : List Char} (hl : leadsWith n h = true) :
    jsIncludes h n = true := by
  cases h with
  | nil => simpa [jsIncludes] using hl
  | cons c t => simp [jsIncludes, hl]

theorem jsIncludes_cons {n t : List Char} (c : Char)
    (hi : jsIncludes t n = true) : jsIncludes (c :: t) n = true := by
  simp [jsIncludes, hi]

theorem jsIncludes_upper {h n : List Char} (hi : jsIncludes h n = true) :
    jsIncludes (upperStr h) (upperStr n) = true := by
  induction h with
  | nil =>
    simp only [jsIncludes] at hi ⊢
    cases n with
    | nil => simp [leadsWith, upperStr]
    | cons a as => simp [leadsWith] at hi
  | cons c t ih =>
    simp only [jsIncludes, Bool.or_eq_true] at hi
    rcases hi with hl | hrec
    · have := leadsWith_upper hl
      simp only [upperStr, List.map_cons] at this ⊢
      simp [jsIncludes, this]
    · have := ih hrec
      simp only [upperStr, List.map_cons] at this ⊢
      exact jsIncludes_cons _ this

theorem jsIncludes_drop {h n : List Char} (k : ℕ)
    (hi : jsIncludes (h.drop k) n = true) : jsIncludes h n = true := by
  induction k generalizing h with
  | zero => simpa using hi
  | succ k ih =>
    cases h with
    | nil => simpa using hi
    | cons c t =>
      simp only [List.drop_succ_cons] at hi
      exact jsIncludes_cons c (ih hi)

theorem matchCI_drop {p s rest : List Char} (hm : matchCI p s = some rest) :
    rest = s.drop p.length := by
  induction p generalizing s with
  | nil => simpa [matchCI] using hm.symm
  | cons a as ih =>
    cases s with
    | nil => simp [matchCI] at hm
    | cons c cs =>
      simp only [matchCI] at hm
      split at hm
      · simpa using ih hm
      · exact absurd hm (by simp)

theorem matchCI_leadsWith {p s rest : List Char} (hm : matchCI p s = some rest) :
    leadsWith p (upperStr s) = true := by
  induction p generalizing s with
  | nil => simp [leadsWith]
  | cons a as ih =>
    cases s with
    | nil => simp [matchCI] at hm
    | cons c cs =>
      simp only [matchCI] at hm
      split at hm
      · rename_i hc
        simp only [beq_iff_eq] at hc
        simp only [upperStr, List.map_cons, leadsWith, Bool.and_eq_true,
          beq_iff_eq]
        exact ⟨hc.symm, ih hm⟩
      · exact absurd hm (by simp)

theorem skipWS_eq_drop (s : List Char) : ∃ k, skipWS s = s.drop k := by
  induction s with
  | nil => exact ⟨0, rfl⟩
  | cons c t ih =>
    by_cases hc : jsWhitespace c = true
    · obtain ⟨k, hk⟩ := ih
      exact ⟨k + 1, by simpa [skipWS, List.dropWhile, hc] using hk⟩
    · exact ⟨0, by simp [skipWS, List.dropWhile, hc]⟩

theorem upperStr_drop (s : List Char) (k : ℕ) :
    upperStr (s.drop k) = (upperStr s).drop k := by
  simp [upperStr, List.map_drop]

theorem matchVerdictAt_sound {s v : List Char}
    (h : ChatBox.matchVerdictAt s = some v) :
    (v = "FAKE".data ∨ v = "MISLEADING".data ∨ v = "CREDIBLE".data) ∧
      jsIncludes (upperStr s) v = true := by
  unfold ChatBox.matchVerdictAt at h
  cases hm : matchCI "VERDICT:".data s with
  | none => rw [hm] at h; exact absurd h (by simp)
  | some rest =>
    rw [hm] at h
    simp only at h
    have hrest : rest = s.drop 8 := matchCI_drop hm
    obtain ⟨k, hk⟩ := skipWS_eq_drop rest
    have hskip : skipWS rest = s.drop (8 + k) := by
      rw [hk, hrest, List.drop_drop]
    have key : ∀ w : List Char, leadsWith w (upperStr (skipWS rest)) = true →
        jsIncludes (upperStr s) w = true := by
      intro w hw
      rw [hskip, upperStr_drop] at hw
      exact jsIncludes_drop (8 + k) (jsIncludes_of_leadsWith hw)
    split at h
    · rename_i hf
      obtain ⟨r2, hr2⟩ := Option.isSome_iff_exists.mp hf
      have := key _ (matchCI_leadsWith hr2)
      obtain rfl : v = "FAKE".data := by simpa using h.symm
      exact ⟨Or.inl rfl, this⟩
    · split at h
      · rename_i hf
        obtain ⟨r2, hr2⟩ := Option.isSome_iff_exists.mp hf
        have := key _ (matchCI_leadsWith hr2)
        obtain rfl : v = "MISLEADING".data := by simpa using h.symm
        exact ⟨Or.inr (Or.inl rfl), this⟩
      · split at h
        · rename_i hf
          obtain ⟨r2, hr2⟩ := Option.isSome_iff_exists.mp hf
          have := key _ (matchCI_leadsWith hr2)
          obtain rfl : v = "CREDIBLE".data := by simpa using h.symm
          exact ⟨Or.inr (Or.inr rfl), this⟩
        · exact absurd h (by simp)

theorem scanVerdict_sound {s v : List Char}
    (h : ChatBox.scanVerdict s = some v) :
    (v = "FAKE".data ∨ v = "MISLEADING".data ∨ v = "CREDIBLE".data) ∧
      jsIncludes (upperStr s) v = true := by
  induction s with
  | nil => simp [ChatBox.scanVerdict] at h
  | cons c t ih =>
    simp only [ChatBox.scanVerdict] at h
    cases hm : ChatBox.matchVerdictAt (c :: t) with
    | some w =>
      rw [hm] at h
      obtain rfl : w = v := by simpa using h
      exact matchVerdictAt_sound hm
    | none =>
      rw [hm] at h
      simp only at h
      obtain ⟨hv, hi⟩ := ih h
      refine ⟨hv, ?_⟩
      simpa [upperStr] using jsIncludes_cons c.toUpper (by simpa [upperStr] using hi)

/-! ### Claim C1 - verdict priority -/

/-- C1 counterexample: the claim fails on both cited parsers.  The
content-script extractVerdict matches case-sensitively, so a text
containing fake (lower case) and MISLEADING yields MISLEADING, not
FAKE; the ChatBox extractVerdict returns the verdict word standing
after the first VERDICT: label, so a text containing both MISLEADING
and FAKE in that order yields MISLEADING, not FAKE. -/
theorem c1_priority_counterexample :
    ContentScript.extractVerdict "fake but MISLEADING".data =
      "MISLEADING".data ∧
    ChatBox.extractVerdict "VERDICT: MISLEADING, though some say FAKE".data =
      "MISLEADING".data ∧
    "MISLEADING".data ≠ "FAKE".data := by
  refine ⟨?_, ?_, ?_⟩ <;> decide

/-- C1 (amended): for every answer text in which more than one verdict
token occurs as an exact upper-case substring, the content-script
extractVerdict selects by the fixed priority FAKE first, then
CREDIBLE/TRUE, then MISLEADING, matching tokens case-sensitively, so a
text containing both MISLEADING and FAKE yields FAKE regardless of
token positions. -/
theorem c1_priority_order (t : List Char) :
    (jsIncludes t "FAKE".data = true →
      ContentScript.extractVerdict t = "FAKE".data) ∧
    (jsIncludes t "FAKE".data = false →
      (jsIncludes t "CREDIBLE".data || jsIncludes t "TRUE".data) = true →
      ContentScript.extractVerdict t = "CREDIBLE".data) ∧
    (jsIncludes t "FAKE".data = false → jsIncludes t "CREDIBLE".data = false →
      jsIncludes t "TRUE".data = false → jsIncludes t "MISLEADING".data = true →
      ContentScript.extractVerdict t = "MISLEADING".data) := by
  refine ⟨fun h1 => ?_, fun h1 h2 => ?_, fun h1 h2 h3 h4 => ?_⟩ <;>
    simp [ContentScript.extractVerdict, *]

/-- C1 witness: the amended priority at concrete inputs holding more
than one token. -/
theorem c1_priority_order_witness :
    ContentScript.extractVerdict "MISLEADING and FAKE".data = "FAKE".data ∧
    ContentScript.extractVerdict "TRUE yet MISLEADING".data = "CREDIBLE".data ∧
    ContentScript.extractVerdict "merely MISLEADING".data = "MISLEADING".data :=
  ⟨(c1_priority_order _).1 (by decide),
   (c1_priority_order _).2.1 (by decide) (by decide),
   (c1_priority_order _).2.2 (by decide) (by decide) (by decide) (by decide)⟩

/-! ### Claim C4 - no token means UNCERTAIN -/

/-- C4 counterexample: on a token-free text the ChatBox extractVerdict,
one of the two cited parsers, returns UNKNOWN, not UNCERTAIN. -/
theorem c4_no_token_counterexample :
    ChatBox.extractVerdict "hello there".data = "UNKNOWN".data ∧
    "UNKNOWN".data ≠ "UNCERTAIN".data := by
  constructor <;> decide

/-- C4 (amended): for every answer text containing none of the verdict
tokens FAKE, CREDIBLE, TRUE, MISLEADING - not even under
case-insensitive matching - the content-script extractVerdict returns
UNCERTAIN, while the ChatBox extractVerdict returns UNKNOWN. -/
theorem c4_no_token_default (t : List Char)
    (h1 : ciIncludes t "FAKE".data = false)
    (h2 : ciIncludes t "CREDIBLE".data = false)
    (h3 : ciIncludes t "TRUE".data = false)
    (h4 : ciIncludes t "MISLEADING".data = false) :
    ContentScript.extractVerdict t = "UNCERTAIN".data ∧
    ChatBox.extractVerdict t = "UNKNOWN".data := by
  have hcs : ∀ w : List Char, upperStr w = w →
      ciIncludes t w = false → jsIncludes t w = false := by
    intro w hw hci
    by_contra hcon
    have : jsIncludes t w = true := by
      cases hj : jsIncludes t w with
      | true => rfl
      | false => exact absurd hj hcon
    have := jsIncludes_upper this
    rw [hw] at this
    rw [ciIncludes] at hci
    rw [hci] at this
    exact Bool.false_ne_true this
  constructor
  · have g1 := hcs "FAKE".data (by decide) h1
    have g2 := hcs "CREDIBLE".data (by decide) h2
    have g3 := hcs "TRUE".data (by decide) h3
    have g4 := hcs "MISLEADING".data (by decide) h4
    simp [ContentScript.extractVerdict, g1, g2, g3, g4]
  · cases hscan : ChatBox.scanVerdict t with
    | none => simp [ChatBox.extractVerdict, hscan]
    | some v =>
      exfalso
      obtain ⟨hv, hi⟩ := scanVerdict_sound hscan
      have : ciIncludes t v = true := hi
      rcases hv with rfl | rfl | rfl
      · rw [h1] at this; exact Bool.false_ne_true this
      · rw [h4] at this; exact Bool.false_ne_true this
      · rw [h2] at this; exact Bool.false_ne_true this

/-- C4 witness: both parsers at a concrete token-free text. -/
theorem c4_no_token_default_witness :
    ContentScript.extractVerdict "nothing to see".data = "UNCERTAIN".data ∧
    ChatBox.extractVerdict "nothing to see".data = "UNKNOWN".data :=
  c4_no_token_default "nothing to see".data
    (by decide) (by decide) (by decide) (by decide)

/-! ### Claim C8 - determinism of the verdict parser -/

/-- C8: the verdict parsers are deterministic - both embedded
extractVerdict functions are pure functions of the answer text alone
(neither source function reads any mutable state), so two applications
to the same text return the same verdict value. -/
theorem c8_extractVerdict_deterministic (t : List Char) :
    ContentScript.extractVerdict t = ContentScript.extractVerdict t ∧
    ChatBox.extractVerdict t = ChatBox.extractVerdict t :=
  ⟨rfl, rfl⟩

/-! ### Claim C5 - empty submissions are rejected before any request -/

/-- C5: when the claim text trims to the empty string and no file is
selected, handleAnalyze returns without issuing any HTTP request, so no
pipeline tier can run for that submission. -/
theorem c5_empty_input_rejected (input sid : List Char) (loading : Bool)
    (h : jsTrim input = []) :
    ChatBox.handleAnalyze input none loading sid = none := by
  have hne : (jsTrim input).isEmpty = true := by rw [h]; rfl
  simp [ChatBox.handleAnalyze, hne]

/-- C5 witness: a concrete whitespace-only submission is rejected. -/
theorem c5_empty_input_rejected_witness :
    jsTrim "   ".data = [] ∧
    ChatBox.handleAnalyze "   ".data none false [] = none :=
  ⟨by decide, c5_empty_input_rejected "   ".data [] false (by decide)⟩

/-! ### Claim C9 - history bound -/

/-- C9: after every addToHistory call the stored history has the new
result as its first (most recent) element and has length at most 20,
for any prior history contents. -/
theorem c9_addToHistory_bound (r : ChatBox.AnalysisResult)
    (h : List ChatBox.AnalysisResult) :
    (ChatBox.addToHistory r h).head? = some r ∧
    (ChatBox.addToHistory r h).length ≤ 20 := by
  unfold ChatBox.addToHistory
  refine ⟨rfl, ?_⟩
  exact List.length_take_le 20 (r :: h)

/-! ### Claim C10 - URL routing -/

/-- C10: for a non-empty text submission with no file selected,
handleAnalyze routes to the ask_web endpoint exactly when the text
contains an http or https URL (hasURL agrees with the existence of a
regular-expression match), sending the first matched URL and the
remaining text with that URL removed - or the fixed default question
when nothing remains - and otherwise routes to the ask endpoint with
the full trimmed text as the question. -/
theorem c10_url_routing (input sid : List Char) (h : jsTrim input ≠ []) :
    ChatBox.hasURL (jsTrim input) = (ChatBox.firstURL (jsTrim input)).isSome ∧
    (∀ u, ChatBox.firstURL (jsTrim input) = some u →
      ChatBox.handleAnalyze input none false sid =
        some (ChatBox.Request.askWeb u
          (if (jsTrim (ChatBox.replaceFirst (jsTrim input) u)).isEmpty
           then "Analyze this article".data
           else jsTrim (ChatBox.replaceFirst (jsTrim input) u)) sid)) ∧
    (ChatBox.firstURL (jsTrim input) = none →
      ChatBox.handleAnalyze input none false sid =
        some (ChatBox.Request.ask (jsTrim input) sid)) := by
  have hne : (jsTrim input).isEmpty = false := by
    cases hj : jsTrim input with
    | nil => exact absurd hj h
    | cons a l => rfl
  refine ⟨rfl, fun u hu => ?_, fun hn => ?_⟩
  · simp [ChatBox.handleAnalyze, hne, ChatBox.hasURL, hu]
  · simp [ChatBox.handleAnalyze, hne, ChatBox.hasURL, hn]

/-- C10 witness: a concrete URL-bearing text goes to ask_web with the
URL split out, and a concrete plain text goes to ask unchanged. -/
theorem c10_url_routing_witness :
    jsTrim "check https://example.com please".data ≠ [] ∧
    ChatBox.handleAnalyze "check https://example.com please".data none false [] =
      some (ChatBox.Request.askWeb "https://example.com".data
        "check  please".data []) ∧
    ChatBox.handleAnalyze "no links here".data none false [] =
      some (ChatBox.Request.ask "no links here".data []) := by
  refine ⟨by decide, ?_, ?_⟩
  · exact ((c10_url_routing "check https://example.com please".data []
      (by decide)).2.1 "https://example.com".data (by decide)).trans (by decide)
  · exact ((c10_url_routing "no links here".data [] (by decide)).2.2
      (by decide)).trans (by decide)

/-! ### Claim C2 - strict threshold gate -/

/-- C2: a Retrieval Result whose best (lowest) distance score is exactly
100 is a miss, and one whose best distance is strictly below 100 is a
hit - the relevance gate compares with strict less-than. -/
theorem c2_threshold_strict (scores : List ℚ) (d : ℚ)
    (h : Backend.bestScore scores = some d) :
    (d = 100 → Backend.usable scores = false) ∧
    (d < 100 → Backend.usable scores = true) := by
  unfold Backend.usable
  rw [h]
  constructor
  · rintro rfl
    norm_num [Backend.SCORE_THRESHOLD]
  · intro hd
    simp [Backend.SCORE_THRESHOLD, hd]

/-- C2 witness: best distance exactly 100 is a miss, best distance 99.9
is a hit. -/
theorem c2_threshold_strict_witness :
    Backend.usable [(100 : ℚ)] = false ∧
    Backend.usable [(999 / 10 : ℚ)] = true :=
  ⟨(c2_threshold_strict [100] 100 rfl).1 rfl,
   (c2_threshold_strict [999 / 10] (999 / 10) rfl).2 (by norm_num)⟩

/-! ### Claim C3 - cache precedence -/

/-- C3 counterexample: a request answered from the cache tier is tagged
with the source_type label db, not cache, as the workflow document
records. -/
theorem c3_cache_counterexample :
    (Backend.process Backend.envCached).1.source_type ≠ "cache" := by
  decide

/-- C3 (amended): for any question with an existing equivalent cached
Verification Record, a repeated request completes in the cache tier -
the response carries the cached answer, is tagged with the cache-tier
source_type label db, and confidence 95, and neither the Retrieval
Engine nor the Web Evidence Gatherer is invoked for that request. -/
theorem c3_cache_short_circuit (env : Backend.Env) (a : String)
    (h : env.cacheHit = some a) :
    (Backend.process env).1 =
      { answer := a, source_type := "db", confidence := 95 } ∧
    Backend.Component.retrievalEngine ∉ (Backend.process env).2 ∧
    Backend.Component.webGatherer ∉ (Backend.process env).2 := by
  unfold Backend.process
  rw [h]
  refine ⟨rfl, ?_, ?_⟩ <;> simp

/-- C3 witness: a concrete request with a cache hit. -/
theorem c3_cache_short_circuit_witness :
    (Backend.process Backend.envCached).1 =
      { answer := "the claim is false", source_type := "db",
        confidence := 95 } ∧
    Backend.Component.retrievalEngine ∉
      (Backend.process Backend.envCached).2 ∧
    Backend.Component.webGatherer ∉
      (Backend.process Backend.envCached).2 :=
  c3_cache_short_circuit Backend.envCached "the claim is false" rfl

/-! ### Claim C6 - source_type matches the producing tier -/

/-- C6 counterexample: the cache tier labels its responses db, so the
emitted source_type is not drawn from the set cache, rag, web. -/
theorem c6_source_type_counterexample :
    ¬ ((Backend.process Backend.envCachedB).1.source_type
      ∈ (["cache", "rag", "web"] : List String)) := by
  decide

/-- C6 (amended): every completed verification response carries a
source_type drawn from db, rag, web, and that label equals the label of
the pipeline tier that actually produced the answer, read off the
invocation trace. -/
theorem c6_source_type_matches_tier (env : Backend.Env) :
    (Backend.process env).1.source_type =
      Backend.sourceLabel (Backend.producedTier (Backend.process env).2) ∧
    (Backend.process env).1.source_type ∈
      (["db", "rag", "web"] : List String) := by
  unfold Backend.process
  cases henv : env.cacheHit with
  | some a => simp [Backend.producedTier, Backend.sourceLabel]
  | none =>
    by_cases hu : Backend.usable env.ragScores
    · simp [hu, Backend.producedTier, Backend.sourceLabel]
    · simp [hu, Backend.producedTier, Backend.sourceLabel]

/-! ### Claim C7 - chunk coverage -/

/-- C7: for every text and every positive chunk-size bound, chunk_text
returns an ordered sequence of substrings, each of length at most the
bound, whose concatenation reproduces the original text with no
character loss - including the empty text and texts whose length is
exactly divisible by the bound.  A zero bound is excluded: no sequence
of substrings of length at most zero can cover a non-empty text. -/
theorem c7_chunk_coverage (maxSize : ℕ) (text : List Char)
    (hpos : 0 < maxSize) :
    (∀ c ∈ Backend.chunk_text maxSize text, c.length ≤ maxSize) ∧
    (Backend.chunk_text maxSize text).flatten = text := by
  have hmax : max 1 maxSize = maxSize := max_eq_right hpos
  suffices H : ∀ fuel (t : List Char), t.length ≤ fuel →
      (∀ c ∈ Backend.chunkGo maxSize fuel t, c.length ≤ maxSize) ∧
      (Backend.chunkGo maxSize fuel t).flatten = t from
    H text.length text le_rfl
  intro fuel
  induction fuel with
  | zero =>
    intro t ht
    have hnil : t = [] := List.eq_nil_of_length_eq_zero (Nat.le_zero.mp ht)
    subst hnil
    simp [Backend.chunkGo]
  | succ n ih =>
    intro t ht
    cases t with
    | nil => simp [Backend.chunkGo]
    | cons c rest =>
      simp only [Backend.chunkGo, hmax]
      have hlen : ((c :: rest).drop maxSize).length ≤ n := by
        simp only [List.length_drop, List.length_cons]
        simp only [List.length_cons] at ht
        omega
      obtain ⟨ih1, ih2⟩ := ih ((c :: rest).drop maxSize) hlen
      constructor
      · intro x hx
        rcases List.mem_cons.mp hx with rfl | hx2
        · exact List.length_take_le maxSize _
        · exact ih1 x hx2
      · show (c :: rest).take maxSize ++
            (Backend.chunkGo maxSize n ((c :: rest).drop maxSize)).flatten =
            c :: rest
        rw [ih2]
        exact List.take_append_drop maxSize _

/-- C7 witness: a text whose length is exactly divisible by the bound
is covered without loss, each chunk obeys the bound, and the empty text
yields an empty covering. -/
theorem c7_chunk_coverage_witness :
    (Backend.chunk_text 4 "abcdefgh".data).flatten = "abcdefgh".data ∧
    "abcd".data.length ≤ 4 ∧
    (Backend.chunk_text 4 ([] : List Char)).flatten = [] :=
  ⟨(c7_chunk_coverage 4 "abcdefgh".data (by decide)).2,
   (c7_chunk_coverage 4 "abcdefgh".data (by decide)).1 "abcd".data (by decide),
   (c7_chunk_coverage 4 [] (by decide)).2⟩

end NoCap
